import Mathlib

/-!
# Staleness detection core of `memory.py`, shallowly embedded

This file embeds the staleness-detection core of the repository's
`memory.py` (the functions `resolve_path`, `get_code_files_in_dir` and
`check_staleness`) and proves properties of the evaluation algorithm.

The boundary to the outside world (git queries, file reading, path
normalisation, directory listing) is modelled by an explicit environment
record of pure functions; the control flow of the Python code is
translated branch by branch.  Python truthiness tests on optional
strings (`if git_error:`) and optional integers (`if dep_time:`) are
modelled by `strTruthy` and the explicit `t ≠ 0` test, since Python
treats `None`, `''` and `0` as false.
-/

set_option autoImplicit false

/-- `SECONDS_PER_DAY = 86400` from the source. -/
def SECONDS_PER_DAY : Nat := 86400

/-- The `StalenessResult` dataclass: result of a staleness check.
Field defaults follow the Python dataclass defaults. -/
structure StalenessResult where
  stale : Bool
  doc_time : Option Nat := none
  newest_code_time : Option Nat := none
  newest_code_file : Option String := none
  days_behind : Nat := 0
  hours_behind : Nat := 0
  deps_source : String := "none"
  deps_count : Nat := 0
  error : Option String := none
  reason : Option String := none
  deriving Repr, DecidableEq

/-- Python truthiness of an optional string: `None` and `''` are falsy. -/
def strTruthy : Option String → Bool
  | none => false
  | some s => s ≠ ""

/-- Python `s.endswith(t)`, computed on the character list. -/
def strEndsWith (s t : String) : Bool :=
  t.data.isSuffixOf s.data

/-- Python `s.startswith(t)`, computed on the character list. -/
def strStartsWith (s t : String) : Bool :=
  t.data.isPrefixOf s.data

/-- Python `c in s` for a single character, computed on the character list. -/
def strContainsChar (s : String) (c : Char) : Bool :=
  s.data.contains c

/-- Filesystem/path collaborator used by `resolve_path`:
`parent` models `Path(p).parent`, `normJoin` models
`(base_dir / rel).resolve()` (which may raise `OSError`/`ValueError`,
hence `Except`), `within` models `resolved.relative_to(project_root)`
succeeding, and `pathExists` models `resolved.exists()`. -/
structure FsEnv where
  parent : String → String
  normJoin : String → String → Except String String
  within : String → String → Bool
  pathExists : String → Bool

/-- `resolve_path(base_path, relative_path, project_root)`:
resolve a relative dependency reference from the base file's directory,
returning `(resolved_path?, skip_reason?)`. Direct translation of the
Python function, with the filesystem abstracted by `fs`. -/
def resolve_path (fs : FsEnv) (base_path relative_path project_root : String) :
    Option String × Option String :=
  if relative_path.length > 200 then
    (none, some "Path too long (>200 chars)")
  else if strContainsChar relative_path '\n' then
    (none, some "Path contains newline")
  else if ¬ strStartsWith relative_path "./" ∧ ¬ strStartsWith relative_path "../" ∧
      strContainsChar relative_path '/' then
    (none, some ("Use ./ prefix for paths with directories: " ++ relative_path))
  else
    let base_dir := fs.parent base_path
    match fs.normJoin base_dir relative_path with
    | Except.error e => (none, some ("Error resolving path: " ++ e))
    | Except.ok resolved =>
      if ¬ fs.within resolved project_root then
        (none, some ("Path escapes project directory: " ++ relative_path))
      else if fs.pathExists resolved then
        (some resolved, none)
      else if strStartsWith relative_path "./" then
        match fs.normJoin base_dir (relative_path.drop 2) with
        | Except.error e => (none, some ("Error resolving path: " ++ e))
        | Except.ok resolved2 =>
          if ¬ fs.within resolved2 project_root then
            (none, some ("Path escapes project directory: " ++ relative_path))
          else if fs.pathExists resolved2 then
            (some resolved2, none)
          else
            (none, none)
      else
        (none, none)

/-- Environment of external collaborators consumed by `check_staleness`:
`lastCommitTime` is `get_last_commit_time` (timestamp?, error?),
`parseMd`/`parseCode` are the two dependency extractors
(`parse_depends_from_md` / `parse_depends_from_code`), `fs` is the
path/filesystem collaborator, and `codeFilesInDir` is
`get_code_files_in_dir`. -/
structure Env where
  lastCommitTime : String → Option Nat × Option String
  parseMd : String → List String × Option String
  parseCode : String → List String × Option String
  fs : FsEnv
  codeFilesInDir : String → List String × Option String

/-- The extractor dispatch of `check_staleness` lines 269-272:
markdown files go to `parse_depends_from_md`, everything else to
`parse_depends_from_code`. -/
def dispatchParse (env : Env) (doc_path : String) : List String × Option String :=
  if strEndsWith doc_path ".md" then env.parseMd doc_path else env.parseCode doc_path

/-- The resolution loop of `check_staleness` lines 283-288: resolve each
raw dependency, keep the truthy results, silently drop skips. -/
def resolveAll (env : Env) (doc_path project_root : String) : List String → List String
  | [] => []
  | dep :: rest =>
    match (resolve_path env.fs doc_path dep project_root).1 with
    | some r =>
      if r ≠ "" then r :: resolveAll env doc_path project_root rest
      else resolveAll env doc_path project_root rest
    | none => resolveAll env doc_path project_root rest

/-- The newest-dependency loop of `check_staleness` lines 312-323:
fold over the resolved dependencies carrying
`(newest_time, newest_file, checked_deps)`; a dependency participates
only when its timestamp is truthy (present and nonzero), and the query's
error component is discarded (`dep_time, _ = ...`). -/
def depScan (env : Env) :
    List String → Nat → Option String → List (String × Nat) →
    Nat × Option String × List (String × Nat)
  | [], newest_time, newest_file, checked_deps => (newest_time, newest_file, checked_deps)
  | dep :: rest, newest_time, newest_file, checked_deps =>
    match (env.lastCommitTime dep).1 with
    | some t =>
      if t ≠ 0 then
        if t > newest_time then
          depScan env rest t (some dep) (checked_deps ++ [(dep, t)])
        else
          depScan env rest newest_time newest_file (checked_deps ++ [(dep, t)])
      else
        depScan env rest newest_time newest_file checked_deps
    | none => depScan env rest newest_time newest_file checked_deps

/-- Lines 312-348 of `check_staleness`: given the document timestamp,
the detection source and the final dependency list, scan for the newest
dependency and build the verdict. -/
def finishCheck (env : Env) (doc_time : Nat) (deps_source : String)
    (resolved_deps : List String) : StalenessResult :=
  let scan := depScan env resolved_deps 0 none []
  let newest_time := scan.1
  let newest_file := scan.2.1
  let checked_deps := scan.2.2
  if newest_time = 0 then
    { stale := false
      doc_time := some doc_time
      deps_source := deps_source
      deps_count := resolved_deps.length
      reason := some "Dependencies not tracked by git" }
  else
    let is_stale := decide (newest_time > doc_time)
    let time_diff := if newest_time > doc_time then newest_time - doc_time else 0
    { stale := is_stale
      doc_time := some doc_time
      newest_code_time := some newest_time
      newest_code_file := newest_file
      days_behind := time_diff / SECONDS_PER_DAY
      hours_behind := (time_diff % SECONDS_PER_DAY) / 3600
      deps_source := deps_source
      deps_count := checked_deps.length }

/-- `check_staleness(doc_path, project_root)`: the staleness evaluator,
translated branch by branch from the Python source. -/
def check_staleness (env : Env) (doc_path project_root : String) : StalenessResult :=
  let dt := env.lastCommitTime doc_path
  if strTruthy dt.2 then
    { stale := false, error := dt.2 }
  else
    match dt.1 with
    | none => { stale := false, error := some "Doc not tracked by git" }
    | some doc_time =>
      let pr := dispatchParse env doc_path
      if strTruthy pr.2 then
        { stale := false
          doc_time := some doc_time
          error := pr.2
          deps_source := "none" }
      else
        let resolved_deps := resolveAll env doc_path project_root pr.1
        let deps_source := if ¬ resolved_deps.isEmpty then "explicit" else "directory"
        if resolved_deps.isEmpty then
          let fb := env.codeFilesInDir (env.fs.parent doc_path)
          if strTruthy fb.2 then
            { stale := false
              doc_time := some doc_time
              deps_source := "directory"
              error := fb.2 }
          else if fb.1.isEmpty then
            { stale := false
              doc_time := some doc_time
              deps_source := deps_source
              reason := some "No dependencies found" }
          else
            finishCheck env doc_time deps_source fb.1
        else
          finishCheck env doc_time deps_source resolved_deps

/-- The timestamps of the dependencies whose git query returned a value
(including the value `0`). -/
def knownTimes (env : Env) (l : List String) : List Nat :=
  l.filterMap (fun p => (env.lastCommitTime p).1)

/-- The timestamps of the dependencies whose git query returned a truthy
(nonzero) value: exactly those the comparison loop keeps. -/
def truthyTimes (env : Env) (l : List String) : List Nat :=
  (knownTimes env l).filter (fun t => t ≠ 0)

/-- The dependency list the evaluator ultimately compares against:
the resolved declared dependencies when any resolved, otherwise the
directory-fallback listing (`none` when the fallback listing errors). -/
def effectiveDeps (env : Env) (doc_path project_root : String) (deps : List String) :
    Option (List String) :=
  let r := resolveAll env doc_path project_root deps
  if r.isEmpty then
    let fb := env.codeFilesInDir (env.fs.parent doc_path)
    if strTruthy fb.2 then none else some fb.1
  else
    some r

/-- The detection source the evaluator reports, as a function of the
declared dependencies: `explicit` when at least one resolved. -/
def depsSourceOf (env : Env) (doc_path project_root : String) (deps : List String) : String :=
  if ¬ (resolveAll env doc_path project_root deps).isEmpty then "explicit" else "directory"

theorem natMax_right {n t : Nat} (h : n ≤ t) : Nat.max n t = t := by
  show (if n ≤ t then t else n) = t
  rw [if_pos h]

theorem natMax_left {n t : Nat} (h : t ≤ n) : Nat.max n t = n := by
  show (if n ≤ t then t else n) = n
  split <;> omega

theorem natMax_zero_left (x : Nat) : Nat.max 0 x = x :=
  natMax_right (Nat.zero_le x)

theorem natMax_zero_right (x : Nat) : Nat.max x 0 = x :=
  natMax_left (Nat.zero_le x)

theorem natMax_assoc (a b c : Nat) :
    Nat.max (Nat.max a b) c = Nat.max a (Nat.max b c) := by
  show (if Nat.max a b ≤ c then c else Nat.max a b) =
    (if a ≤ Nat.max b c then Nat.max b c else a)
  rcases Nat.le_total a b with hab | hab <;> rcases Nat.le_total b c with hbc | hbc <;>
    rw [show Nat.max a b = if a ≤ b then b else a from rfl,
        show Nat.max b c = if b ≤ c then c else b from rfl] <;>
    split_ifs <;> omega

theorem natMax_eq_zero_iff (a b : Nat) : Nat.max a b = 0 ↔ a = 0 ∧ b = 0 := by
  show (if a ≤ b then b else a) = 0 ↔ _
  split <;> omega

theorem knownTimes_nil (env : Env) : knownTimes env [] = [] := rfl

theorem knownTimes_cons (env : Env) (dep : String) (rest : List String) :
    knownTimes env (dep :: rest) =
      match (env.lastCommitTime dep).1 with
      | some t => t :: knownTimes env rest
      | none => knownTimes env rest := by
  simp only [knownTimes, List.filterMap_cons]
  cases (env.lastCommitTime dep).1 <;> rfl

/-- The first component of the dependency scan is the running maximum of
the known timestamps, seeded with the accumulator. -/
theorem depScan_fst (env : Env) : ∀ (l : List String) (n : Nat) (f : Option String)
    (c : List (String × Nat)),
    (depScan env l n f c).1 = (knownTimes env l).foldl Nat.max n := by
  intro l
  induction l with
  | nil => intro n f c; rfl
  | cons dep rest ih =>
    intro n f c
    rw [knownTimes_cons]
    cases h : (env.lastCommitTime dep).1 with
    | none => simp only [depScan, h, ih]
    | some t =>
      simp only [depScan, h]
      by_cases ht : t = 0
      · subst ht
        simp [ih, natMax_zero_right]
      · rw [if_pos ht]
        by_cases hgt : t > n
        · rw [if_pos hgt, ih, List.foldl_cons, natMax_right (Nat.le_of_lt hgt)]
        · rw [if_neg hgt, ih, List.foldl_cons, natMax_left (Nat.le_of_not_lt hgt)]

/-- The checked-dependency list of the scan grows by exactly the
dependencies with a truthy timestamp. -/
theorem depScan_checked (env : Env) : ∀ (l : List String) (n : Nat) (f : Option String)
    (c : List (String × Nat)),
    ((depScan env l n f c).2.2).length = c.length + (truthyTimes env l).length := by
  intro l
  induction l with
  | nil => intro n f c; simp [depScan, truthyTimes, knownTimes]
  | cons dep rest ih =>
    intro n f c
    have hcons : truthyTimes env (dep :: rest) =
        match (env.lastCommitTime dep).1 with
        | some t => if t ≠ 0 then t :: truthyTimes env rest else truthyTimes env rest
        | none => truthyTimes env rest := by
      simp only [truthyTimes, knownTimes_cons]
      cases h : (env.lastCommitTime dep).1 with
      | none => rfl
      | some t =>
        by_cases ht : t = 0
        · subst ht; simp
        · simp [List.filter_cons, ht]
    rw [hcons]
    cases h : (env.lastCommitTime dep).1 with
    | none => simp only [depScan, h, ih]
    | some t =>
      simp only [depScan, h]
      by_cases ht : t = 0
      · subst ht; simp [ih]
      · simp only [if_pos (by simpa using ht), ht]
        by_cases hgt : t > n
        · rw [if_pos hgt, ih]
          simp [Nat.add_assoc, Nat.add_comm 1]
        · rw [if_neg hgt, ih]
          simp [Nat.add_assoc, Nat.add_comm 1]

theorem foldl_max_shift (l : List Nat) : ∀ a : Nat,
    l.foldl Nat.max a = Nat.max a (l.foldl Nat.max 0) := by
  induction l with
  | nil => intro a; simp
  | cons x l ih =>
    intro a
    simp only [List.foldl_cons]
    rw [ih (Nat.max a x), ih (Nat.max 0 x), natMax_zero_left, natMax_assoc]

theorem foldl_max_eq_zero_iff (l : List Nat) :
    l.foldl Nat.max 0 = 0 ↔ ∀ x ∈ l, x = 0 := by
  induction l with
  | nil => simp
  | cons x l ih =>
    rw [List.foldl_cons, natMax_zero_left, foldl_max_shift, natMax_eq_zero_iff]
    constructor
    · rintro ⟨hx, hF⟩ y hy
      rcases List.mem_cons.mp hy with rfl | hy
      · exact hx
      · exact ih.mp hF y hy
    · intro h
      exact ⟨h x (List.mem_cons_self x l),
        ih.mpr fun y hy => h y (List.mem_cons.mpr (Or.inr hy))⟩

/-- No truthy timestamp iff every known timestamp is zero iff the
running maximum is zero. -/
theorem truthyTimes_eq_nil_iff (env : Env) (l : List String) :
    truthyTimes env l = [] ↔ (knownTimes env l).foldl Nat.max 0 = 0 := by
  rw [truthyTimes, List.filter_eq_nil_iff, foldl_max_eq_zero_iff]
  simp

theorem finishCheck_stale (env : Env) (t : Nat) (ds : String) (R : List String) :
    (finishCheck env t ds R).stale =
      decide ((knownTimes env R).foldl Nat.max 0 > t) := by
  simp only [finishCheck, depScan_fst]
  by_cases h : (knownTimes env R).foldl Nat.max 0 = 0
  · simp [h]
  · simp [h]

theorem finishCheck_error (env : Env) (t : Nat) (ds : String) (R : List String) :
    (finishCheck env t ds R).error = none := by
  simp only [finishCheck]
  split <;> rfl

theorem finishCheck_doc_time (env : Env) (t : Nat) (ds : String) (R : List String) :
    (finishCheck env t ds R).doc_time = some t := by
  simp only [finishCheck]
  split <;> rfl

theorem finishCheck_deps_source (env : Env) (t : Nat) (ds : String) (R : List String) :
    (finishCheck env t ds R).deps_source = ds := by
  simp only [finishCheck]
  split <;> rfl

theorem finishCheck_reason (env : Env) (t : Nat) (ds : String) (R : List String) :
    (finishCheck env t ds R).reason = some "Dependencies not tracked by git" ∨
      (finishCheck env t ds R).reason = none := by
  simp only [finishCheck]
  split
  · left; rfl
  · right; rfl

/-- When no dependency has a truthy timestamp, the evaluator returns the
"Dependencies not tracked by git" record with the raw attempted count. -/
theorem finishCheck_notTracked (env : Env) (t : Nat) (ds : String) (R : List String)
    (h : (knownTimes env R).foldl Nat.max 0 = 0) :
    finishCheck env t ds R =
      { stale := false
        doc_time := some t
        deps_source := ds
        deps_count := R.length
        reason := some "Dependencies not tracked by git" } := by
  simp only [finishCheck, depScan_fst]
  rw [if_pos h]

/-- When some dependency has a truthy timestamp, the evaluator compares
against the maximum and counts only the truthy dependencies. -/
theorem finishCheck_tracked (env : Env) (t : Nat) (ds : String) (R : List String)
    (h : (knownTimes env R).foldl Nat.max 0 ≠ 0) :
    finishCheck env t ds R =
      { stale := decide ((knownTimes env R).foldl Nat.max 0 > t)
        doc_time := some t
        newest_code_time := some ((knownTimes env R).foldl Nat.max 0)
        newest_code_file := (depScan env R 0 none []).2.1
        days_behind :=
          (if (knownTimes env R).foldl Nat.max 0 > t then
            (knownTimes env R).foldl Nat.max 0 - t else 0) / SECONDS_PER_DAY
        hours_behind :=
          ((if (knownTimes env R).foldl Nat.max 0 > t then
            (knownTimes env R).foldl Nat.max 0 - t else 0) % SECONDS_PER_DAY) / 3600
        deps_source := ds
        deps_count := (truthyTimes env R).length } := by
  simp only [finishCheck, depScan_fst, depScan_checked, List.length_nil, Nat.zero_add]
  rw [if_neg h]

theorem depScan_congr (env₁ env₂ : Env)
    (h : env₁.lastCommitTime = env₂.lastCommitTime) :
    ∀ (l : List String) (n : Nat) (f : Option String) (c : List (String × Nat)),
      depScan env₁ l n f c = depScan env₂ l n f c := by
  intro l
  induction l with
  | nil => intro n f c; rfl
  | cons dep rest ih =>
    intro n f c
    cases hx : (env₂.lastCommitTime dep).1 with
    | none => simp only [depScan, h, hx]; exact ih n f c
    | some t =>
      simp only [depScan, h, hx]
      by_cases ht : t = 0
      · rw [if_neg (not_not_intro ht), if_neg (not_not_intro ht)]
        exact ih n f c
      · rw [if_pos ht, if_pos ht]
        by_cases hgt : t > n
        · rw [if_pos hgt, if_pos hgt]; exact ih t (some dep) (c ++ [(dep, t)])
        · rw [if_neg hgt, if_neg hgt]; exact ih n f (c ++ [(dep, t)])

theorem resolveAll_congr (env₁ env₂ : Env) (h : env₁.fs = env₂.fs)
    (doc_path project_root : String) :
    ∀ l : List String,
      resolveAll env₁ doc_path project_root l = resolveAll env₂ doc_path project_root l := by
  intro l
  induction l with
  | nil => rfl
  | cons dep rest ih =>
    simp only [resolveAll, h, ih]

theorem finishCheck_congr (env₁ env₂ : Env)
    (h : env₁.lastCommitTime = env₂.lastCommitTime)
    (t : Nat) (ds : String) (R : List String) :
    finishCheck env₁ t ds R = finishCheck env₂ t ds R := by
  simp only [finishCheck, depScan_congr env₁ env₂ h]

theorem dispatchParse_congr (env₁ env₂ : Env)
    (hmd : env₁.parseMd = env₂.parseMd) (hcode : env₁.parseCode = env₂.parseCode)
    (doc_path : String) :
    dispatchParse env₁ doc_path = dispatchParse env₂ doc_path := by
  unfold dispatchParse
  rw [hmd, hcode]

/-- Under the hypotheses that the document's git query succeeds, the
extractor succeeds and the effective dependency list is `R ≠ []`, the
evaluator reduces to `finishCheck` on `R`. -/
theorem check_staleness_eq_finishCheck (env : Env) (doc_path project_root : String)
    (t : Nat) (R : List String)
    (hgit : strTruthy (env.lastCommitTime doc_path).2 = false)
    (hdoc : (env.lastCommitTime doc_path).1 = some t)
    (hparse : strTruthy (dispatchParse env doc_path).2 = false)
    (hR : effectiveDeps env doc_path project_root (dispatchParse env doc_path).1 = some R)
    (hne : R ≠ []) :
    check_staleness env doc_path project_root =
      finishCheck env t (depsSourceOf env doc_path project_root (dispatchParse env doc_path).1) R := by
  unfold effectiveDeps at hR
  by_cases hres : (resolveAll env doc_path project_root (dispatchParse env doc_path).1).isEmpty
  · simp only [hres, if_true] at hR
    by_cases hfb : strTruthy (env.codeFilesInDir (env.fs.parent doc_path)).2
    · simp [hfb] at hR
    · simp only [hfb, Bool.false_eq_true, if_false] at hR
      have hfb1 : (env.codeFilesInDir (env.fs.parent doc_path)).1 = R :=
        Option.some.inj hR
      have hfbne : (env.codeFilesInDir (env.fs.parent doc_path)).1.isEmpty = false := by
        rw [hfb1]
        simpa [List.isEmpty_iff] using hne
      simp [check_staleness, depsSourceOf, hgit, hdoc, hparse, hres, hfb, hfbne, hfb1, hne]
  · have hres1 : resolveAll env doc_path project_root (dispatchParse env doc_path).1 = R := by
      rw [if_neg hres] at hR
      exact Option.some.inj hR
    simp [check_staleness, depsSourceOf, hgit, hdoc, hparse, hres, hres1, hne]

/-- Exhaustive enumeration of the evaluator's return branches: every
result is a git-error result, an untracked-document result, a
parse-error result, a fallback-listing-error result, a
no-dependencies result, or a `finishCheck` comparison result. -/
theorem check_staleness_shape (env : Env) (doc_path project_root : String) :
    (strTruthy (env.lastCommitTime doc_path).2 = true ∧
      check_staleness env doc_path project_root =
        { stale := false, error := (env.lastCommitTime doc_path).2 }) ∨
    ((env.lastCommitTime doc_path).1 = none ∧
      check_staleness env doc_path project_root =
        { stale := false, error := some "Doc not tracked by git" }) ∨
    (strTruthy (dispatchParse env doc_path).2 = true ∧ ∃ t : Nat,
      (env.lastCommitTime doc_path).1 = some t ∧
      check_staleness env doc_path project_root =
        { stale := false, doc_time := some t, error := (dispatchParse env doc_path).2,
          deps_source := "none" }) ∨
    (strTruthy (env.codeFilesInDir (env.fs.parent doc_path)).2 = true ∧ ∃ t : Nat,
      (env.lastCommitTime doc_path).1 = some t ∧
      check_staleness env doc_path project_root =
        { stale := false, doc_time := some t, deps_source := "directory",
          error := (env.codeFilesInDir (env.fs.parent doc_path)).2 }) ∨
    (∃ t : Nat, (env.lastCommitTime doc_path).1 = some t ∧
      check_staleness env doc_path project_root =
        { stale := false, doc_time := some t, deps_source := "directory",
          reason := some "No dependencies found" }) ∨
    (∃ (t : Nat) (R : List String) (ds : String),
      (env.lastCommitTime doc_path).1 = some t ∧ R ≠ [] ∧
      (ds = "explicit" ∨ ds = "directory") ∧
      check_staleness env doc_path project_root = finishCheck env t ds R) := by
  by_cases hgit : strTruthy (env.lastCommitTime doc_path).2
  · left
    refine ⟨hgit, ?_⟩
    simp [check_staleness, hgit]
  · cases hdoc : (env.lastCommitTime doc_path).1 with
    | none =>
      right; left
      refine ⟨rfl, ?_⟩
      simp [check_staleness, hgit, hdoc]
    | some t =>
      by_cases hparse : strTruthy (dispatchParse env doc_path).2
      · right; right; left
        refine ⟨hparse, t, rfl, ?_⟩
        simp [check_staleness, hgit, hdoc, hparse]
      · by_cases hres : (resolveAll env doc_path project_root (dispatchParse env doc_path).1).isEmpty
        · by_cases hfb : strTruthy (env.codeFilesInDir (env.fs.parent doc_path)).2
          · right; right; right; left
            refine ⟨hfb, t, rfl, ?_⟩
            simp [check_staleness, hgit, hdoc, hparse, hres, hfb]
          · by_cases hfbe : (env.codeFilesInDir (env.fs.parent doc_path)).1.isEmpty
            · right; right; right; right; left
              refine ⟨t, rfl, ?_⟩
              simp only [List.isEmpty_iff] at hfbe hres
              simp [check_staleness, hgit, hdoc, hparse, hres, hfb, hfbe]
            · right; right; right; right; right
              refine ⟨t, (env.codeFilesInDir (env.fs.parent doc_path)).1, "directory",
                rfl, by simpa [List.isEmpty_iff] using hfbe, Or.inr rfl, ?_⟩
              simp only [List.isEmpty_iff] at hres
              simp only [Bool.not_eq_true] at hfb hfbe
              simp [check_staleness, hgit, hdoc, hparse, hres, hfb, hfbe]
        · right; right; right; right; right
          refine ⟨t, resolveAll env doc_path project_root (dispatchParse env doc_path).1,
            "explicit", rfl, by simpa [List.isEmpty_iff] using hres, Or.inl rfl, ?_⟩
          simp only [Bool.not_eq_true] at hres
          simp [check_staleness, hgit, hdoc, hparse, hres]

/-- Day/hour decomposition of the comparison branch: zero when not
stale, floor-divided delta when stale. -/
theorem finishCheck_days_hours (env : Env) (t : Nat) (ds : String) (R : List String) :
    ((finishCheck env t ds R).stale = false →
      (finishCheck env t ds R).days_behind = 0 ∧
      (finishCheck env t ds R).hours_behind = 0) ∧
    (∀ n d : Nat, (finishCheck env t ds R).stale = true →
      (finishCheck env t ds R).newest_code_time = some n →
      (finishCheck env t ds R).doc_time = some d →
      (finishCheck env t ds R).days_behind = (n - d) / 86400 ∧
      (finishCheck env t ds R).hours_behind = ((n - d) % 86400) / 3600) := by
  by_cases h : (knownTimes env R).foldl Nat.max 0 = 0
  · rw [finishCheck_notTracked env t ds R h]
    exact ⟨fun _ => ⟨rfl, rfl⟩, fun n d hs => Bool.noConfusion hs⟩
  · rw [finishCheck_tracked env t ds R h]
    by_cases hMt : (knownTimes env R).foldl Nat.max 0 > t
    · refine ⟨fun hs => ?_, fun n d hs hn hd => ?_⟩
      · have hs' : decide ((knownTimes env R).foldl Nat.max 0 > t) = false := hs
        rw [decide_eq_true hMt] at hs'
        exact Bool.noConfusion hs'
      · have hn' : (knownTimes env R).foldl Nat.max 0 = n := Option.some.inj hn
        have hd' : t = d := Option.some.inj hd
        subst hn'
        subst hd'
        constructor
        · show (if _ > _ then _ - _ else 0) / SECONDS_PER_DAY = _
          rw [if_pos hMt]
          rfl
        · show ((if _ > _ then _ - _ else 0) % SECONDS_PER_DAY) / 3600 = _
          rw [if_pos hMt]
          rfl
    · refine ⟨fun _ => ?_, fun n d hs => ?_⟩
      · constructor
        · show (if _ > _ then _ - _ else 0) / SECONDS_PER_DAY = 0
          rw [if_neg hMt]
          rfl
        · show ((if _ > _ then _ - _ else 0) % SECONDS_PER_DAY) / 3600 = 0
          rw [if_neg hMt]
          rfl
      · have hs' : decide ((knownTimes env R).foldl Nat.max 0 > t) = true := hs
        exact absurd (of_decide_eq_true hs') hMt

/-- A flat filesystem model: everything lives under `/p`, joining is
string concatenation, every path is inside the project and exists. -/
def fsFlat : FsEnv :=
  { parent := fun _ => "/p"
    normJoin := fun d r => Except.ok (d ++ "/" ++ r)
    within := fun _ _ => true
    pathExists := fun _ => true }

/-- `doc.md` committed at 1000; its one declared dependency committed at
91000, i.e. 90000 seconds (one day and one hour) later. -/
def envC : Env :=
  { lastCommitTime := fun p => if p = "doc.md" then (some 1000, none) else (some 91000, none)
    parseMd := fun _ => (["./dep.ts"], none)
    parseCode := fun _ => ([], none)
    fs := fsFlat
    codeFilesInDir := fun _ => ([], none) }

/-- A document git knows nothing about: no timestamp, no error. -/
def envUntracked : Env :=
  { lastCommitTime := fun _ => (none, none)
    parseMd := fun _ => ([], none)
    parseCode := fun _ => ([], none)
    fs := fsFlat
    codeFilesInDir := fun _ => ([], none) }

/-- The git query itself fails for every path. -/
def envGitErr : Env :=
  { lastCommitTime := fun _ => (none, some "Not a git repository")
    parseMd := fun _ => (["./a.ts"], none)
    parseCode := fun _ => ([], none)
    fs := fsFlat
    codeFilesInDir := fun _ => ([], none) }

/-- Two dependencies: the first dependency's timestamp query errors,
the second is committed at 2000 (document at 1000). -/
def envDepErr : Env :=
  { lastCommitTime := fun p =>
      if p = "doc.md" then (some 1000, none)
      else if p = "/p/./a.ts" then (none, some "Git error: boom")
      else (some 2000, none)
    parseMd := fun _ => (["./a.ts", "./b.ts"], none)
    parseCode := fun _ => ([], none)
    fs := fsFlat
    codeFilesInDir := fun _ => ([], none) }

/-- One resolved dependency that git does not track. -/
def envUD : Env :=
  { lastCommitTime := fun p => if p = "doc.md" then (some 1000, none) else (none, none)
    parseMd := fun _ => (["./a.ts"], none)
    parseCode := fun _ => ([], none)
    fs := fsFlat
    codeFilesInDir := fun _ => ([], none) }

/-- One resolved dependency whose last-commit timestamp is exactly 0. -/
def envZero : Env :=
  { lastCommitTime := fun p => if p = "doc.md" then (some 1000, none) else (some 0, none)
    parseMd := fun _ => (["./a.ts"], none)
    parseCode := fun _ => ([], none)
    fs := fsFlat
    codeFilesInDir := fun _ => ([], none) }

/-- No declared dependencies and an empty sibling directory. -/
def envNoDeps : Env :=
  { lastCommitTime := fun p => if p = "doc.md" then (some 1000, none) else (some 2000, none)
    parseMd := fun _ => ([], none)
    parseCode := fun _ => ([], none)
    fs := fsFlat
    codeFilesInDir := fun _ => ([], none) }

/-- Filesystem in which `missing.ts` does not exist (under either the
initial resolution or the prefix-stripped retry) but everything else
does. -/
def fsSix : FsEnv :=
  { parent := fun _ => "/p"
    normJoin := fun d r => Except.ok (d ++ "/" ++ r)
    within := fun _ _ => true
    pathExists := fun p => p ≠ "/p/./missing.ts" && p ≠ "/p/missing.ts" }

/-- Two declared dependencies of which only one resolves. -/
def envSix : Env :=
  { lastCommitTime := fun p => if p = "doc.md" then (some 1000, none) else (some 2000, none)
    parseMd := fun _ => (["./missing.ts", "./dep.ts"], none)
    parseCode := fun _ => ([], none)
    fs := fsSix
    codeFilesInDir := fun _ => ([], none) }

/-- Same environment but with a directory scanner that would error if it
were ever consulted. -/
def envSixAlt : Env :=
  { envSix with codeFilesInDir := fun _ => ([], some "Permission denied reading directory: /p") }

/-- A filesystem whose containment check rejects everything while every
path exists, for exercising the escape branch of `resolve_path`. -/
def fsEsc : FsEnv :=
  { parent := fun _ => "/p/docs"
    normJoin := fun d r => Except.ok (d ++ "/" ++ r)
    within := fun _ _ => false
    pathExists := fun _ => true }

/-- C1: for every document whose git query succeeds, whose dependency
extraction succeeds, and whose effective dependency list `R` is
non-empty with at least one dependency of known last-commit timestamp,
the verdict is stale if and only if the maximum known dependency
timestamp strictly exceeds the document's own timestamp. -/
theorem c1_stale_iff_max_exceeds (env : Env) (doc_path project_root : String)
    (t : Nat) (R : List String)
    (hgit : strTruthy (env.lastCommitTime doc_path).2 = false)
    (hdoc : (env.lastCommitTime doc_path).1 = some t)
    (hparse : strTruthy (dispatchParse env doc_path).2 = false)
    (hR : effectiveDeps env doc_path project_root (dispatchParse env doc_path).1 = some R)
    (hne : R ≠ [])
    (_hknown : knownTimes env R ≠ []) :
    (check_staleness env doc_path project_root).stale = true ↔
      (knownTimes env R).foldl Nat.max 0 > t := by
  rw [check_staleness_eq_finishCheck env doc_path project_root t R hgit hdoc hparse hR hne,
    finishCheck_stale]
  simp

/-- C1 witness: in `envC` every hypothesis of `c1_stale_iff_max_exceeds`
holds and the document is reported stale. -/
theorem c1_witness : (check_staleness envC "doc.md" "/p").stale = true :=
  (c1_stale_iff_max_exceeds envC "doc.md" "/p" 1000 ["/p/./dep.ts"]
    (by decide) (by decide) (by decide) (by decide) (by decide) (by decide)).mpr (by decide)

/-- C2 counterexample: for a present-but-untracked document (timestamp
query returns absent with no error), the evaluator sets the `error`
field to "Doc not tracked by git" and leaves `reason` empty — the
claim's "non-error reason, error never set" is false. -/
theorem c2_counterexample :
    envUntracked.lastCommitTime "doc.md" = (none, none) ∧
    (check_staleness envUntracked "doc.md" "/p").error = some "Doc not tracked by git" ∧
    (check_staleness envUntracked "doc.md" "/p").reason = none := by decide

/-- C2 amended: for every document untracked by version control, the
evaluator returns stale = false with the error field set to
"Doc not tracked by git" and no reason. -/
theorem c2_amended_untracked_is_error (env : Env) (doc_path project_root : String)
    (h : env.lastCommitTime doc_path = (none, none)) :
    (check_staleness env doc_path project_root).stale = false ∧
    (check_staleness env doc_path project_root).error = some "Doc not tracked by git" ∧
    (check_staleness env doc_path project_root).reason = none := by
  simp [check_staleness, h, strTruthy]

/-- C2 witness: the amended statement at the concrete untracked
environment. -/
theorem c2_witness :
    (check_staleness envUntracked "doc.md" "/p").stale = false ∧
    (check_staleness envUntracked "doc.md" "/p").error = some "Doc not tracked by git" ∧
    (check_staleness envUntracked "doc.md" "/p").reason = none :=
  c2_amended_untracked_is_error envUntracked "doc.md" "/p" rfl

/-- C3 counterexample: a dependency timestamp query that returns a
query-level error does not abort the evaluation — the result carries no
error and the comparison proceeds with the remaining dependency. -/
theorem c3_counterexample :
    envDepErr.lastCommitTime "/p/./a.ts" = (none, some "Git error: boom") ∧
    (check_staleness envDepErr "doc.md" "/p").error = none ∧
    (check_staleness envDepErr "doc.md" "/p").stale = true := by decide

/-- C3 amended: a dependency whose timestamp is absent is excluded from
the comparison set and evaluation continues, whether or not the query
reported an error; once the dependency list is determined the result
never carries an error. -/
theorem c3_amended_dep_errors_never_abort (env : Env) (doc_path project_root : String)
    (t : Nat) (R : List String)
    (hgit : strTruthy (env.lastCommitTime doc_path).2 = false)
    (hdoc : (env.lastCommitTime doc_path).1 = some t)
    (hparse : strTruthy (dispatchParse env doc_path).2 = false)
    (hR : effectiveDeps env doc_path project_root (dispatchParse env doc_path).1 = some R)
    (hne : R ≠ []) :
    (check_staleness env doc_path project_root).error = none := by
  rw [check_staleness_eq_finishCheck env doc_path project_root t R hgit hdoc hparse hR hne]
  exact finishCheck_error env t _ R

/-- C3 witness: the amended statement at the concrete environment with
an erroring dependency query. -/
theorem c3_witness : (check_staleness envDepErr "doc.md" "/p").error = none :=
  c3_amended_dep_errors_never_abort envDepErr "doc.md" "/p" 1000 ["/p/./a.ts", "/p/./b.ts"]
    (by decide) (by decide) (by decide) (by decide) (by decide)

/-- A 201-character raw reference. -/
def longRef : String := "./" ++ String.mk (List.replicate 199 'a')

set_option maxRecDepth 4000 in
/-- C4 counterexample: a reference longer than 200 characters whose
normalized resolution lies outside the project root (the containment
check of `fsEsc` rejects every path) is rejected with the length
reason, not the containment-violation reason — the preliminary filters
run first. -/
theorem c4_counterexample :
    longRef.length = 201 ∧
    fsEsc.normJoin (fsEsc.parent "/p/docs/doc.md") longRef = Except.ok ("/p/docs/" ++ longRef) ∧
    fsEsc.within ("/p/docs/" ++ longRef) "/p" = false ∧
    resolve_path fsEsc "/p/docs/doc.md" longRef "/p" =
      (none, some "Path too long (>200 chars)") :=
  ⟨by decide, rfl, by decide, by decide⟩

/-- C4: a raw reference that passes the preliminary syntactic filters
and whose normalized resolution lies outside the project root is
rejected with the containment-violation reason, regardless of whether
the target exists; the same holds on the retry with the leading "./"
stripped. -/
theorem c4_containment_rejects (fs : FsEnv) (base_path relative_path project_root r1 : String)
    (hlen : ¬ relative_path.length > 200)
    (hnl : strContainsChar relative_path '\n' = false)
    (hpre : ¬(¬ strStartsWith relative_path "./" = true ∧
      ¬ strStartsWith relative_path "../" = true ∧
      strContainsChar relative_path '/' = true))
    (hjoin : fs.normJoin (fs.parent base_path) relative_path = Except.ok r1) :
    (fs.within r1 project_root = false →
      resolve_path fs base_path relative_path project_root =
        (none, some ("Path escapes project directory: " ++ relative_path))) ∧
    (∀ r2 : String, fs.within r1 project_root = true → fs.pathExists r1 = false →
      strStartsWith relative_path "./" = true →
      fs.normJoin (fs.parent base_path) (relative_path.drop 2) = Except.ok r2 →
      fs.within r2 project_root = false →
      resolve_path fs base_path relative_path project_root =
        (none, some ("Path escapes project directory: " ++ relative_path))) := by
  constructor
  · intro hwithin
    simp only [resolve_path, hlen, hnl, hjoin, hwithin, if_false, if_neg hpre,
      Bool.false_eq_true, not_false_eq_true, if_true]
  · intro r2 hwithin hexists hdot hjoin2 hwithin2
    simp only [resolve_path, hlen, hnl, hjoin, hjoin2, hwithin, hexists, hdot, hwithin2,
      if_false, if_neg hpre, Bool.false_eq_true, not_false_eq_true, if_true,
      Bool.true_eq_false, not_true_eq_false, false_and, ite_false]

/-- C4 witness: the spec's own scenario — `../../etc/passwd` referenced
from a document inside the project is rejected as escaping the project
root even though the filesystem says every path exists. -/
theorem c4_witness :
    resolve_path fsEsc "/p/docs/doc.md" "../../etc/passwd" "/p" =
      (none, some "Path escapes project directory: ../../etc/passwd") :=
  (c4_containment_rejects fsEsc "/p/docs/doc.md" "../../etc/passwd" "/p"
    "/p/docs/../../etc/passwd" (by decide) (by decide) (by decide) rfl).1 rfl

/-- C5: whenever the verdict is stale with delta = newest dependency
timestamp minus document timestamp, days_behind = delta div 86400 and
hours_behind = (delta mod 86400) div 3600; when not stale both fields
are zero. -/
theorem c5_days_hours (env : Env) (doc_path project_root : String) :
    ((check_staleness env doc_path project_root).stale = false →
      (check_staleness env doc_path project_root).days_behind = 0 ∧
      (check_staleness env doc_path project_root).hours_behind = 0) ∧
    (∀ n d : Nat, (check_staleness env doc_path project_root).stale = true →
      (check_staleness env doc_path project_root).newest_code_time = some n →
      (check_staleness env doc_path project_root).doc_time = some d →
      (check_staleness env doc_path project_root).days_behind = (n - d) / 86400 ∧
      (check_staleness env doc_path project_root).hours_behind = ((n - d) % 86400) / 3600) := by
  rcases check_staleness_shape env doc_path project_root with
    ⟨_, hr⟩ | ⟨_, hr⟩ | ⟨_, t, _, hr⟩ | ⟨_, t, _, hr⟩ | ⟨t, _, hr⟩ | ⟨t, R, ds, _, _, _, hr⟩
  · rw [hr]; exact ⟨fun _ => ⟨rfl, rfl⟩, fun n d hs => Bool.noConfusion hs⟩
  · rw [hr]; exact ⟨fun _ => ⟨rfl, rfl⟩, fun n d hs => Bool.noConfusion hs⟩
  · rw [hr]; exact ⟨fun _ => ⟨rfl, rfl⟩, fun n d hs => Bool.noConfusion hs⟩
  · rw [hr]; exact ⟨fun _ => ⟨rfl, rfl⟩, fun n d hs => Bool.noConfusion hs⟩
  · rw [hr]; exact ⟨fun _ => ⟨rfl, rfl⟩, fun n d hs => Bool.noConfusion hs⟩
  · rw [hr]; exact finishCheck_days_hours env t ds R

/-- C5 witness: the 90000-second delta of `envC` yields one day and one
hour behind. -/
theorem c5_witness :
    (check_staleness envC "doc.md" "/p").stale = true ∧
    (check_staleness envC "doc.md" "/p").days_behind = 1 ∧
    (check_staleness envC "doc.md" "/p").hours_behind = 1 := by
  have h := (c5_days_hours envC "doc.md" "/p").2 91000 1000 (by decide) (by decide) (by decide)
  exact ⟨by decide, h.1.trans (by decide), h.2.trans (by decide)⟩

/-- C6: if at least one declared dependency resolves, the detection
source is "explicit" (even when other declared dependencies fail to
resolve) and the result does not depend on the directory fallback
scanner at all, i.e. the scan never runs. -/
theorem c6_explicit_precedence (env₁ env₂ : Env) (doc_path project_root : String) (t : Nat)
    (hlct : env₁.lastCommitTime = env₂.lastCommitTime)
    (hmd : env₁.parseMd = env₂.parseMd)
    (hcode : env₁.parseCode = env₂.parseCode)
    (hfs : env₁.fs = env₂.fs)
    (hgit : strTruthy (env₁.lastCommitTime doc_path).2 = false)
    (hdoc : (env₁.lastCommitTime doc_path).1 = some t)
    (hparse : strTruthy (dispatchParse env₁ doc_path).2 = false)
    (hres : resolveAll env₁ doc_path project_root (dispatchParse env₁ doc_path).1 ≠ []) :
    (check_staleness env₁ doc_path project_root).deps_source = "explicit" ∧
    check_staleness env₁ doc_path project_root = check_staleness env₂ doc_path project_root := by
  have hiso : (resolveAll env₁ doc_path project_root
      (dispatchParse env₁ doc_path).1).isEmpty = false := by
    simpa [List.isEmpty_iff] using hres
  have hR : effectiveDeps env₁ doc_path project_root (dispatchParse env₁ doc_path).1 =
      some (resolveAll env₁ doc_path project_root (dispatchParse env₁ doc_path).1) := by
    simp [effectiveDeps, hiso]
  have hdp := dispatchParse_congr env₁ env₂ hmd hcode doc_path
  have hra := resolveAll_congr env₁ env₂ hfs doc_path project_root
  constructor
  · rw [check_staleness_eq_finishCheck env₁ doc_path project_root t _ hgit hdoc hparse hR hres,
      finishCheck_deps_source]
    unfold depsSourceOf
    rw [hiso]
    simp
  · have hgit₂ : strTruthy (env₂.lastCommitTime doc_path).2 = false := by
      rw [← hlct]; exact hgit
    have hdoc₂ : (env₂.lastCommitTime doc_path).1 = some t := by
      rw [← hlct]; exact hdoc
    have hparse₂ : strTruthy (dispatchParse env₂ doc_path).2 = false := by
      rw [← hdp]; exact hparse
    have hR₂ : effectiveDeps env₂ doc_path project_root (dispatchParse env₂ doc_path).1 =
        some (resolveAll env₁ doc_path project_root (dispatchParse env₁ doc_path).1) := by
      simp only [effectiveDeps, ← hdp, ← hra, hiso, Bool.false_eq_true, if_false]
    rw [check_staleness_eq_finishCheck env₁ doc_path project_root t _ hgit hdoc hparse hR hres,
      check_staleness_eq_finishCheck env₂ doc_path project_root t _ hgit₂ hdoc₂ hparse₂ hR₂ hres]
    have hds : depsSourceOf env₂ doc_path project_root (dispatchParse env₂ doc_path).1 =
        depsSourceOf env₁ doc_path project_root (dispatchParse env₁ doc_path).1 := by
      unfold depsSourceOf
      rw [← hdp, ← hra]
    rw [hds]
    exact finishCheck_congr env₁ env₂ hlct t _ _

/-- C6 witness: `envSix` declares two dependencies of which only one
resolves; the result is "explicit" and agrees with the result under a
scanner that would error if consulted. -/
theorem c6_witness :
    (check_staleness envSix "doc.md" "/p").deps_source = "explicit" ∧
    check_staleness envSix "doc.md" "/p" = check_staleness envSixAlt "doc.md" "/p" :=
  c6_explicit_precedence envSix envSixAlt "doc.md" "/p" 1000 rfl rfl rfl rfl
    (by decide) (by decide) (by decide) (by decide)

/-- C7 counterexample: with one resolved dependency that yielded no
timestamp, the "Dependencies not tracked by git" result reports
deps_count = 1 (the raw attempted count), not 0 as the claim requires. -/
theorem c7_counterexample :
    effectiveDeps envUD "doc.md" "/p" (dispatchParse envUD "doc.md").1 = some ["/p/./a.ts"] ∧
    knownTimes envUD ["/p/./a.ts"] = [] ∧
    (check_staleness envUD "doc.md" "/p").reason = some "Dependencies not tracked by git" ∧
    (check_staleness envUD "doc.md" "/p").deps_count = 1 := by decide

/-- C7 amended: in the comparison outcome deps_count is the number of
dependencies that yielded a truthy timestamp, but in the
"Dependencies not tracked by git" outcome it is the raw number of
resolved dependencies attempted. -/
theorem c7_amended_deps_count (env : Env) (doc_path project_root : String)
    (t : Nat) (R : List String)
    (hgit : strTruthy (env.lastCommitTime doc_path).2 = false)
    (hdoc : (env.lastCommitTime doc_path).1 = some t)
    (hparse : strTruthy (dispatchParse env doc_path).2 = false)
    (hR : effectiveDeps env doc_path project_root (dispatchParse env doc_path).1 = some R)
    (hne : R ≠ []) :
    (truthyTimes env R = [] →
      (check_staleness env doc_path project_root).deps_count = R.length) ∧
    (truthyTimes env R ≠ [] →
      (check_staleness env doc_path project_root).deps_count = (truthyTimes env R).length) := by
  rw [check_staleness_eq_finishCheck env doc_path project_root t R hgit hdoc hparse hR hne]
  constructor
  · intro h0
    rw [finishCheck_notTracked env t _ R ((truthyTimes_eq_nil_iff env R).mp h0)]
  · intro h0
    rw [finishCheck_tracked env t _ R (fun hz => h0 ((truthyTimes_eq_nil_iff env R).mpr hz))]

/-- C7 witness: the amended first case at the concrete environment with
an untracked dependency. -/
theorem c7_witness : (check_staleness envUD "doc.md" "/p").deps_count = 1 := by
  have h := (c7_amended_deps_count envUD "doc.md" "/p" 1000 ["/p/./a.ts"]
    (by decide) (by decide) (by decide) (by decide) (by decide)).1 (by decide)
  exact h.trans (by decide)

/-- C8: in every evaluation result, a set error forces stale = false,
and a stale verdict carries both timestamps with the newest dependency
timestamp strictly greater than the document timestamp. -/
theorem c8_invariants (env : Env) (doc_path project_root : String) :
    ((check_staleness env doc_path project_root).error ≠ none →
      (check_staleness env doc_path project_root).stale = false) ∧
    ((check_staleness env doc_path project_root).stale = true →
      ∃ d n : Nat, (check_staleness env doc_path project_root).doc_time = some d ∧
        (check_staleness env doc_path project_root).newest_code_time = some n ∧ d < n) := by
  rcases check_staleness_shape env doc_path project_root with
    ⟨_, hr⟩ | ⟨_, hr⟩ | ⟨_, t, _, hr⟩ | ⟨_, t, _, hr⟩ | ⟨t, _, hr⟩ | ⟨t, R, ds, _, _, _, hr⟩
  · rw [hr]; exact ⟨fun _ => rfl, fun hs => Bool.noConfusion hs⟩
  · rw [hr]; exact ⟨fun _ => rfl, fun hs => Bool.noConfusion hs⟩
  · rw [hr]; exact ⟨fun _ => rfl, fun hs => Bool.noConfusion hs⟩
  · rw [hr]; exact ⟨fun _ => rfl, fun hs => Bool.noConfusion hs⟩
  · rw [hr]; exact ⟨fun _ => rfl, fun hs => Bool.noConfusion hs⟩
  · rw [hr]
    constructor
    · intro he
      exact absurd (finishCheck_error env t ds R) he
    · intro hs
      by_cases h : (knownTimes env R).foldl Nat.max 0 = 0
      · rw [finishCheck_notTracked env t ds R h] at hs
        exact Bool.noConfusion hs
      · rw [finishCheck_tracked env t ds R h] at hs ⊢
        have hs' : decide ((knownTimes env R).foldl Nat.max 0 > t) = true := hs
        exact ⟨t, (knownTimes env R).foldl Nat.max 0, rfl, rfl, of_decide_eq_true hs'⟩

/-- C8 witness: the first invariant applied at the erroring environment. -/
theorem c8_witness : (check_staleness envGitErr "doc.md" "/p").stale = false :=
  (c8_invariants envGitErr "doc.md" "/p").1 (by decide)

/-- C9: a resolved dependency whose last-commit timestamp is exactly 0
is treated like an untracked one; when every dependency is untracked or
has timestamp 0, the result is the non-stale "Dependencies not tracked
by git" outcome. -/
theorem c9_zero_sentinel (env : Env) (doc_path project_root : String)
    (t : Nat) (R : List String)
    (hgit : strTruthy (env.lastCommitTime doc_path).2 = false)
    (hdoc : (env.lastCommitTime doc_path).1 = some t)
    (hparse : strTruthy (dispatchParse env doc_path).2 = false)
    (hR : effectiveDeps env doc_path project_root (dispatchParse env doc_path).1 = some R)
    (hne : R ≠ [])
    (hzero : ∀ p ∈ R, (env.lastCommitTime p).1 = some 0 ∨ (env.lastCommitTime p).1 = none) :
    (check_staleness env doc_path project_root).stale = false ∧
    (check_staleness env doc_path project_root).reason =
      some "Dependencies not tracked by git" ∧
    (check_staleness env doc_path project_root).deps_count = R.length := by
  have hall : ∀ x ∈ knownTimes env R, x = 0 := by
    intro x hx
    obtain ⟨p, hp, hfp⟩ := List.mem_filterMap.mp hx
    rcases hzero p hp with h0 | h0
    · rw [h0] at hfp
      exact (Option.some.inj hfp).symm
    · rw [h0] at hfp
      exact absurd hfp (by simp)
  have hM : (knownTimes env R).foldl Nat.max 0 = 0 := (foldl_max_eq_zero_iff _).mpr hall
  rw [check_staleness_eq_finishCheck env doc_path project_root t R hgit hdoc hparse hR hne,
    finishCheck_notTracked env t _ R hM]
  exact ⟨rfl, rfl, rfl⟩

/-- C9 witness: a single dependency committed at epoch 0. -/
theorem c9_witness :
    (check_staleness envZero "doc.md" "/p").stale = false ∧
    (check_staleness envZero "doc.md" "/p").reason = some "Dependencies not tracked by git" ∧
    (check_staleness envZero "doc.md" "/p").deps_count = 1 := by
  have h := c9_zero_sentinel envZero "doc.md" "/p" 1000 ["/p/./a.ts"]
    (by decide) (by decide) (by decide) (by decide) (by decide) (by decide)
  exact ⟨h.1, h.2.1, h.2.2.trans (by decide)⟩

/-- C10 counterexample: a git-query error yields a result whose
detection source is "none" even though extraction never ran and reports
no parse error — "none" is not exclusive to extraction parse errors. -/
theorem c10_counterexample :
    (check_staleness envGitErr "doc.md" "/p").deps_source = "none" ∧
    (check_staleness envGitErr "doc.md" "/p").error = some "Not a git repository" ∧
    envGitErr.parseMd "doc.md" = (["./a.ts"], none) := by decide

/-- C10 amended: the "No dependencies found" result always carries
detection source "directory", and detection source "none" occurs only
on results produced before dependency resolution begins: a git-query
error on the document, an untracked document, or an extraction parse
error. -/
theorem c10_amended_deps_source (env : Env) (doc_path project_root : String) :
    ((check_staleness env doc_path project_root).reason = some "No dependencies found" →
      (check_staleness env doc_path project_root).deps_source = "directory") ∧
    ((check_staleness env doc_path project_root).deps_source = "none" →
      strTruthy (env.lastCommitTime doc_path).2 = true ∨
      (env.lastCommitTime doc_path).1 = none ∨
      strTruthy (dispatchParse env doc_path).2 = true) := by
  rcases check_staleness_shape env doc_path project_root with
    ⟨hc, hr⟩ | ⟨hc, hr⟩ | ⟨hc, t, _, hr⟩ | ⟨hc, t, _, hr⟩ | ⟨t, _, hr⟩ | ⟨t, R, ds, _, hne, hds, hr⟩
  · rw [hr]; exact ⟨fun h => Option.noConfusion h, fun _ => Or.inl hc⟩
  · rw [hr]; exact ⟨fun h => Option.noConfusion h, fun _ => Or.inr (Or.inl hc)⟩
  · rw [hr]; exact ⟨fun h => Option.noConfusion h, fun _ => Or.inr (Or.inr hc)⟩
  · rw [hr]
    exact ⟨fun h => Option.noConfusion h,
      fun h => absurd ((by decide : ("directory" : String) ≠ "none") h) not_false⟩
  · rw [hr]
    exact ⟨fun _ => rfl,
      fun h => absurd ((by decide : ("directory" : String) ≠ "none") h) not_false⟩
  · rw [hr]
    constructor
    · intro h
      rcases finishCheck_reason env t ds R with hreas | hreas
      · rw [hreas] at h
        exact absurd (Option.some.inj h) (by decide)
      · rw [hreas] at h
        exact Option.noConfusion h
    · intro h
      rw [finishCheck_deps_source] at h
      rcases hds with rfl | rfl
      · exact absurd h (by decide)
      · exact absurd h (by decide)

/-- C10 witness: the no-dependencies environment reports detection
source "directory" on its "No dependencies found" result. -/
theorem c10_witness : (check_staleness envNoDeps "doc.md" "/p").deps_source = "directory" :=
  (c10_amended_deps_source envNoDeps "doc.md" "/p").1 (by decide)
